import Mathlib

/-!
Shallow embedding of check_rule_ids.py: a pre-merge check that extracts
numeric rule identifiers from XML rule files and reconciles a change-set
against the origin/main reference revision.

External effects are modelled explicitly:
* XML parsing (xml.etree.ElementTree) is abstracted by XmlContent: a text
  blob together with the outcome of ET.fromstring on its root-wrapped form.
  A successful parse is the document-order list of rule elements, each with
  its optional id attribute; a failed parse keeps the raw text for the
  200-character preview diagnostic.
* git commands are oracle functions (Git); run_git_command maps a failing
  command to Except.error, modelling the print-and-sys.exit(1) in its
  except-CalledProcessError handler.  Because sys.exit raises SystemExit,
  which is not an Exception subclass, the except clauses of the callers
  never fire: a failing git command always terminates the process.
* printed diagnostics are modelled as a list of Event values; a result
  flag true models sys.exit(1) (the run fails at the current file).
-/

namespace CheckRuleIds

/-- Python str.isdigit is true for every Unicode digit character, including
characters such as the superscript digits that int() cannot convert
(int raises ValueError on them).  The model keeps the ASCII decimal digits
(Char.isDigit) plus the super- and subscript digits as representatives of
the digit-but-not-decimal class. -/
def nonDecimalDigit (c : Char) : Bool :=
  ['⁰', '¹', '²', '³', '⁴', '⁵', '⁶', '⁷', '⁸', '⁹',
   '₀', '₁', '₂', '₃', '₄', '₅', '₆', '₇', '₈', '₉'].contains c

/-- Model of Python str.isdigit on a single character. -/
def pyIsDigit (c : Char) : Bool :=
  c.isDigit || nonDecimalDigit c

/-- Model of the test `rule_id and rule_id.isdigit()` (line 48): the string
is truthy (non-empty) and every character is a Python digit.  Folding the
truthiness test in is faithful because Python has "".isdigit() == False. -/
def pyStrIsDigit (s : String) : Bool :=
  !s.toList.isEmpty && s.toList.all pyIsDigit

/-- Value of int(s) for a string of decimal digits. -/
def decimalVal (s : String) : Nat :=
  s.toList.foldl (fun n c => 10 * n + (c.toNat - 48)) 0

/-- Whether int(s) succeeds for a string that already passed isdigit:
it does exactly when every character is a decimal digit. -/
def pyIntOk (s : String) : Bool :=
  s.toList.all Char.isDigit

/-- One printed diagnostic line of the script (formatting abstracted). -/
inductive Event where
  /-- Line 51: XML Parse Error, with line 52: the first 200 characters. -/
  | parseFailure (preview : String)
  /-- Line 54: unexpected exception while extracting (e.g. int() failing
  on a digit-test-passing value). -/
  | unexpectedFailure
  /-- Line 128: the working-copy file could not be read; file skipped. -/
  | couldNotRead (path : String)
  /-- Line 132: no rule IDs found in the file. -/
  | noRuleIds (path : String)
  /-- Line 106: rule IDs outside the recommended range, sorted. -/
  | rangeWarning (ids : List Nat)
  /-- Line 141: duplicate rule IDs detected in a file, sorted. -/
  | duplicateReport (path : String) (ids : List Nat)
  /-- Line 95: header of print_conflicts. -/
  | conflictsDetected
  /-- Lines 98-100: one conflicting rule ID with the owning files, sorted. -/
  | conflictRule (rid : Nat) (files : List String)
  /-- Line 151: no conflicts in a new (Added) file. -/
  | noConflictsNewFile (path : String)
  /-- Line 157: file modified but rule IDs unchanged. -/
  | idsUnchanged (path : String)
  /-- Line 167: modified file has no conflicting rule IDs. -/
  | noConflictsModified (path : String)
  /-- Line 171: the file was deleted. -/
  | fileDeleted (path : String)
  /-- Line 13: a git command failed (run_git_command then exits). -/
  | gitFailed
  deriving DecidableEq

/-- A text blob together with the outcome of ET.fromstring applied to its
<root>-wrapped form (lines 39-44).  `blank` is content with empty strip();
`malformed` keeps the raw text for the preview diagnostic; `parsed` is the
document-order list of rule elements, each with its id attribute (none when
the attribute is absent). -/
inductive XmlContent where
  | blank
  | malformed (raw : String)
  | parsed (rules : List (Option String))
  deriving DecidableEq

/-- The extraction loop of lines 46-49 together with the except handlers of
lines 50-55: each rule element whose id passes the digit test contributes
int(id); when int() raises (a Python digit that is not decimal), the
exception aborts the loop, the except-Exception handler prints a diagnostic
and the ids accumulated so far are returned. -/
def extractLoop : List (Option String) → List Nat → List Nat × List Event
  | [], acc => (acc, [])
  | none :: rest, acc => extractLoop rest acc
  | some s :: rest, acc =>
    if pyStrIsDigit s then
      if pyIntOk s then extractLoop rest (acc ++ [decimalVal s])
      else (acc, [.unexpectedFailure])
    else extractLoop rest acc

/-- extract_rule_ids_from_xml (lines 34-55): ids in document order plus the
diagnostics printed while extracting. -/
def extract_rule_ids_from_xml : XmlContent → List Nat × List Event
  | .blank => ([], [])
  | .malformed raw => ([], [.parseFailure (String.mk (raw.toList.take 200))])
  | .parsed rules => extractLoop rules []

/-- run_git_command (lines 7-15): a failing command prints a diagnostic and
calls sys.exit(1); Except.error models the process exit. -/
def run_git_command {α : Type} (result : Option α) : Except Unit α :=
  match result with
  | none => .error ()
  | some v => .ok v

/-- Insert x into l, before the first element not below it. -/
def insertLe {α : Type} (le : α → α → Bool) (x : α) : List α → List α
  | [] => [x]
  | y :: ys => if le x y then x :: y :: ys else y :: insertLe le x ys

/-- Insertion sort; models Python sorted(). -/
def sortLe {α : Type} (le : α → α → Bool) : List α → List α
  | [] => []
  | x :: xs => insertLe le x (sortLe le xs)

/-- sorted() on identifiers. -/
def sortNat (l : List Nat) : List Nat :=
  sortLe (fun a b => a ≤ b) l

/-- Lexicographic order on character lists: Python string comparison is
lexicographic on code points. -/
def charsLt : List Char → List Char → Bool
  | [], [] => false
  | [], _ :: _ => true
  | _ :: _, [] => false
  | a :: as, b :: bs => if a < b then true else if b < a then false else charsLt as bs

/-- sorted() on path strings. -/
def sortStr (l : List String) : List String :=
  sortLe (fun a b => !charsLt b.toList a.toList) l

/-- Python str.startswith, by characters. -/
def charsBeginWith : List Char → List Char → Bool
  | _, [] => true
  | [], _ :: _ => false
  | a :: as, b :: bs => a == b && charsBeginWith as bs

/-- f.startswith(p) of line 62. -/
def strBeginsWith (s p : String) : Bool :=
  charsBeginWith s.toList p.toList

/-- f.endswith(p) of line 62. -/
def strFinishesWith (s p : String) : Bool :=
  charsBeginWith s.toList.reverse p.toList.reverse

/-- First-occurrence deduplication, auxiliary: skip elements in seen. -/
def dedupAux : List Nat → List Nat → List Nat
  | [], _ => []
  | x :: xs, seen =>
    if seen.contains x then dedupAux xs seen else x :: dedupAux xs (x :: seen)

/-- The distinct elements of l in first-occurrence order: the iteration
order of a Python set or Counter built from l. -/
def dedupFirst (l : List Nat) : List Nat :=
  dedupAux l []

/-- Python set(a) & set(b), as the distinct elements of a that occur in b. -/
def pyInter (a b : List Nat) : List Nat :=
  (dedupFirst a).filter (fun x => b.contains x)

/-- Python set(a) - set(b). -/
def pyDiff (a b : List Nat) : List Nat :=
  (dedupFirst a).filter (fun x => !b.contains x)

/-- Python set(a) == set(b). -/
def pySetEq (a b : List Nat) : Bool :=
  a.all (fun x => b.contains x) && b.all (fun x => a.contains x)

/-- detect_duplicates (lines 88-91): the Counter keys (distinct ids in
first-occurrence order) whose count exceeds one. -/
def detect_duplicates (ids : List Nat) : List Nat :=
  (dedupFirst ids).filter (fun i => decide (1 < ids.count i))

/-- The ids outside the inclusive range [100000, 120000] (line 104). -/
def rangeInvalid (ids : List Nat) : List Nat :=
  ids.filter (fun i => decide (¬ (100000 ≤ i ∧ i ≤ 120000)))

/-- validate_rule_id_range (lines 102-107): warn, with the invalid ids
sorted, exactly when some id is out of range. -/
def validate_rule_id_range (ids : List Nat) : List Event :=
  if (rangeInvalid ids).isEmpty then [] else [.rangeWarning (sortNat (rangeInvalid ids))]

/-- rule_id_to_files (defaultdict(set) of line 64) as an association list
from identifier to the set (duplicate-free list) of owning files. -/
abbrev ReferenceIndex := List (Nat × List String)

/-- rule_id_to_files[rule_id].add(file) (line 70): set-insert the file into
the entry of the identifier, creating the entry if absent. -/
def indexAdd : ReferenceIndex → Nat → String → ReferenceIndex
  | [], i, f => [(i, [f])]
  | (j, fs) :: rest, i, f =>
    if j = i then (j, if fs.contains f then fs else fs ++ [f]) :: rest
    else (j, fs) :: indexAdd rest i f

/-- rule_id_to_files.get(rule_id, set()) (line 97). -/
def indexGet (idx : ReferenceIndex) (i : Nat) : List String :=
  match idx.find? (fun p => p.1 == i) with
  | some p => p.2
  | none => []

/-- The keys of the index: every identifier known in the reference revision. -/
def indexKeys (idx : ReferenceIndex) : List Nat :=
  idx.map Prod.fst

/-- print_conflicts (lines 93-100): the header, then one line per
conflicting id in sorted order, with its owning files in sorted order. -/
def print_conflicts (conflictingIds : List Nat) (idx : ReferenceIndex) : List Event :=
  .conflictsDetected :: (sortNat conflictingIds).map (fun i => .conflictRule i (sortStr (indexGet idx i)))

/-- The git oracle: whether `git fetch origin main` succeeds, the output of
`git ls-tree -r origin/main --name-only`, and the content shown by
`git show origin/main:path` (none when the command fails, e.g. because the
path does not exist at origin/main). -/
structure Git where
  fetchOk : Bool
  lsTree : Option (List String)
  showMain : String → Option XmlContent

/-- get_rule_ids_from_main_version (lines 79-86).  The except clause at
lines 84-86 is dead code: run_git_command never raises
subprocess.CalledProcessError to its caller; it prints and sys.exits
instead, so a missing file aborts the process (Except.error). -/
def get_rule_ids_from_main_version (git : Git) (path : String) :
    Except Unit (List Nat × List Event) :=
  match run_git_command (git.showMain path) with
  | .error e => .error e
  | .ok content => .ok (extract_rule_ids_from_xml content)

/-- The per-file loop of get_rule_ids_per_file_in_main (lines 65-73).  The
except clause at lines 71-73 (skip the file with a warning) is dead code
for the same reason: a failing `git show` exits inside run_git_command. -/
def buildIndexLoop (git : Git) : List String → ReferenceIndex → Except Unit ReferenceIndex
  | [], idx => .ok idx
  | f :: rest, idx =>
    match run_git_command (git.showMain f) with
    | .error e => .error e
    | .ok content =>
      let ids := (extract_rule_ids_from_xml content).1
      buildIndexLoop git rest (ids.foldl (fun acc i => indexAdd acc i f) idx)

/-- get_rule_ids_per_file_in_main (lines 57-77): fetch, list the reference
tree, keep the rules/*.xml paths, and fold every file's ids into the index. -/
def get_rule_ids_per_file_in_main (git : Git) : Except Unit ReferenceIndex :=
  match run_git_command (if git.fetchOk then some () else none) with
  | .error e => .error e
  | .ok _ =>
    match run_git_command git.lsTree with
    | .error e => .error e
    | .ok files =>
      buildIndexLoop git
        (files.filter (fun f => strBeginsWith f "rules/" && strFinishesWith f ".xml")) []

/-- The body of the per-file loop of main (lines 121-171) for one changed
file: the diagnostics printed for this file and a flag that is true exactly
when the script calls sys.exit(1) at this file (the run fails).
readText models path.read_text (none: the except at line 127 skips the
file). -/
def processFile (idx : ReferenceIndex) (readText : String → Option XmlContent)
    (git : Git) (status path : String) : List Event × Bool :=
  match readText path with
  | none => ([.couldNotRead path], false)
  | some content =>
    let ex := extract_rule_ids_from_xml content
    let devIds := ex.1
    if devIds.isEmpty then (ex.2 ++ [.noRuleIds path], false)
    else
      let rangeEv := validate_rule_id_range devIds
      let dups := detect_duplicates devIds
      if !dups.isEmpty then
        (ex.2 ++ rangeEv ++ [.duplicateReport path (sortNat dups)], true)
      else if status == "A" then
        let conflicting := pyInter devIds (indexKeys idx)
        if !conflicting.isEmpty then
          (ex.2 ++ rangeEv ++ print_conflicts conflicting idx, true)
        else (ex.2 ++ rangeEv ++ [.noConflictsNewFile path], false)
      else if status == "M" then
        match get_rule_ids_from_main_version git path with
        | .error _ => (ex.2 ++ rangeEv ++ [.gitFailed], true)
        | .ok (mainIds, exm) =>
          if pySetEq devIds mainIds then
            (ex.2 ++ rangeEv ++ exm ++ [.idsUnchanged path], false)
          else
            let conflicting := pyInter (pyDiff devIds mainIds) (indexKeys idx)
            if !conflicting.isEmpty then
              (ex.2 ++ rangeEv ++ exm ++ print_conflicts conflicting idx, true)
            else (ex.2 ++ rangeEv ++ exm ++ [.noConflictsModified path], false)
      else if status == "D" then (ex.2 ++ rangeEv ++ [.fileDeleted path], false)
      else (ex.2 ++ rangeEv, false)

/-- The id attribute values present on the rule elements, in document
order (used to state what the extractor keeps). -/
def attrVals : List (Option String) → List String
  | [] => []
  | none :: rest => attrVals rest
  | some s :: rest => s :: attrVals rest

/-! ### Concrete environments for the evaluation theorems -/

/-- Working-copy content declaring the single identifier 100010. -/
def wContentConflict : XmlContent := .parsed [some "100010"]

/-- Reference index built from a reference revision in which rules/a.xml
owns identifier 100010. -/
def wIdx : ReferenceIndex := [(100010, ["rules/a.xml"])]

/-- A git oracle whose show command always fails. -/
def wGitNone : Git :=
  { fetchOk := true, lsTree := some [], showMain := fun _ => none }

/-- A working tree whose every path reads wContentConflict. -/
def wReadConflict : String → Option XmlContent := fun _ => some wContentConflict

/-- Reference-revision content declaring the single identifier 100011. -/
def wContentMain : XmlContent := .parsed [some "100011"]

/-- A git oracle serving wContentMain for every path. -/
def wGitMain : Git :=
  { fetchOk := true, lsTree := some [], showMain := fun _ => some wContentMain }

/-- Working-copy content declaring identifier 100050 twice. -/
def wContentDup : XmlContent := .parsed [some "100050", some "100050"]

/-- A working tree whose every path reads wContentDup. -/
def wReadDup : String → Option XmlContent := fun _ => some wContentDup

/-- Working-copy content declaring the out-of-range identifier 99999. -/
def wContentRange : XmlContent := .parsed [some "99999"]

/-- A working tree whose every path reads wContentRange. -/
def wReadRange : String → Option XmlContent := fun _ => some wContentRange

/-- A git oracle that lists rules/a.xml but cannot show it. -/
def wGitLsFails : Git :=
  { fetchOk := true, lsTree := some ["rules/a.xml"], showMain := fun _ => none }

/-- A git oracle whose reference revision has rules/a.xml declaring
identifier 100001 twice. -/
def wGitIndex : Git :=
  { fetchOk := true, lsTree := some ["rules/a.xml"],
    showMain := fun _ => some (.parsed [some "100001", some "100001"]) }

/-! ### Basic lemmas about the list helpers -/

theorem mem_insertLe {α : Type} (le : α → α → Bool) (x a : α) (l : List α) :
    a ∈ insertLe le x l ↔ a = x ∨ a ∈ l := by
  induction l with
  | nil => simp [insertLe]
  | cons y ys ih =>
    simp only [insertLe]
    split
    · simp [List.mem_cons]
    · simp [List.mem_cons, ih]
      tauto

theorem mem_sortLe {α : Type} (le : α → α → Bool) (a : α) (l : List α) :
    a ∈ sortLe le l ↔ a ∈ l := by
  induction l with
  | nil => simp [sortLe]
  | cons x xs ih => simp [sortLe, mem_insertLe, ih]

theorem mem_sortNat (a : Nat) (l : List Nat) : a ∈ sortNat l ↔ a ∈ l :=
  mem_sortLe _ a l

theorem mem_dedupAux (l : List Nat) (seen : List Nat) (a : Nat) :
    a ∈ dedupAux l seen ↔ a ∈ l ∧ a ∉ seen := by
  induction l generalizing seen with
  | nil => simp [dedupAux]
  | cons x xs ih =>
    simp only [dedupAux]
    by_cases hx : x ∈ seen
    · rw [if_pos (by simpa using hx), ih]
      constructor
      · rintro ⟨h1, h2⟩
        exact ⟨List.mem_cons_of_mem x h1, h2⟩
      · rintro ⟨h1, h2⟩
        rcases List.mem_cons.mp h1 with rfl | h3
        · exact absurd hx h2
        · exact ⟨h3, h2⟩
    · rw [if_neg (by simpa using hx)]
      constructor
      · intro h
        rcases List.mem_cons.mp h with rfl | h1
        · exact ⟨List.mem_cons_self a xs, hx⟩
        · rcases (ih (x :: seen)).mp h1 with ⟨h2, h3⟩
          exact ⟨List.mem_cons_of_mem x h2, fun hs => h3 (List.mem_cons_of_mem x hs)⟩
      · rintro ⟨h1, h2⟩
        by_cases hax : a = x
        · subst hax
          exact List.mem_cons_self a _
        · rcases List.mem_cons.mp h1 with rfl | h3
          · exact absurd rfl hax
          · refine List.mem_cons_of_mem x ((ih (x :: seen)).mpr ⟨h3, ?_⟩)
            intro hs
            rcases List.mem_cons.mp hs with rfl | hs2
            · exact hax rfl
            · exact h2 hs2

theorem mem_dedupFirst (l : List Nat) (a : Nat) : a ∈ dedupFirst l ↔ a ∈ l := by
  simp [dedupFirst, mem_dedupAux]

theorem mem_pyInter (a b : List Nat) (x : Nat) :
    x ∈ pyInter a b ↔ x ∈ a ∧ x ∈ b := by
  simp [pyInter, List.mem_filter, mem_dedupFirst]

theorem mem_pyDiff (a b : List Nat) (x : Nat) :
    x ∈ pyDiff a b ↔ x ∈ a ∧ x ∉ b := by
  simp [pyDiff, List.mem_filter, mem_dedupFirst]

theorem pyInter_ne_nil (a b : List Nat) :
    pyInter a b ≠ [] ↔ ∃ x, x ∈ a ∧ x ∈ b := by
  constructor
  · intro h
    rcases List.exists_mem_of_ne_nil _ h with ⟨x, hx⟩
    exact ⟨x, (mem_pyInter a b x).mp hx⟩
  · rintro ⟨x, hx⟩ hnil
    have hmem := (mem_pyInter a b x).mpr hx
    rw [hnil] at hmem
    exact List.not_mem_nil x hmem

theorem pySetEq_iff (a b : List Nat) :
    pySetEq a b = true ↔ ∀ x, x ∈ a ↔ x ∈ b := by
  simp only [pySetEq, Bool.and_eq_true, List.all_eq_true, List.elem_eq_mem,
    decide_eq_true_eq]
  constructor
  · rintro ⟨h1, h2⟩ x
    exact ⟨fun hx => h1 x hx, fun hx => h2 x hx⟩
  · intro h
    exact ⟨fun x hx => (h x).mp hx, fun x hx => (h x).mpr hx⟩

theorem mem_attrVals (rules : List (Option String)) (s : String) :
    s ∈ attrVals rules ↔ some s ∈ rules := by
  induction rules with
  | nil => simp [attrVals]
  | cons o rest ih =>
    cases o with
    | none => simp [attrVals, ih]
    | some t => simp [attrVals, List.mem_cons, ih]

theorem mem_detect_duplicates (ids : List Nat) (i : Nat) :
    i ∈ detect_duplicates ids ↔ 2 ≤ ids.count i := by
  simp only [detect_duplicates, List.mem_filter, mem_dedupFirst, decide_eq_true_eq]
  constructor
  · rintro ⟨_, h⟩
    omega
  · intro h
    exact ⟨List.count_pos_iff.mp (by omega), by omega⟩

/-! ### Lemmas about the extractor -/

theorem extractLoop_events (rules : List (Option String)) (acc : List Nat) (e : Event)
    (he : e ∈ (extractLoop rules acc).2) : e = Event.unexpectedFailure := by
  induction rules generalizing acc with
  | nil => simp [extractLoop] at he
  | cons o rest ih =>
    cases o with
    | none =>
      simp only [extractLoop] at he
      exact ih _ he
    | some s =>
      simp only [extractLoop] at he
      split at he
      · split at he
        · exact ih _ he
        · simp at he
          exact he
      · exact ih _ he

theorem extract_events (c : XmlContent) (e : Event)
    (he : e ∈ (extract_rule_ids_from_xml c).2) :
    e = Event.unexpectedFailure ∨ ∃ p, e = Event.parseFailure p := by
  cases c with
  | blank => simp [extract_rule_ids_from_xml] at he
  | malformed raw =>
    simp only [extract_rule_ids_from_xml, List.mem_singleton] at he
    exact Or.inr ⟨_, he⟩
  | parsed rules =>
    exact Or.inl (extractLoop_events rules [] e he)

theorem extract_no_conflictRule (c : XmlContent) (i : Nat) (fs : List String) :
    Event.conflictRule i fs ∉ (extract_rule_ids_from_xml c).2 := by
  intro h
  rcases extract_events c _ h with h1 | ⟨p, h1⟩ <;> simp at h1

theorem extract_no_rangeWarning (c : XmlContent) (ids : List Nat) :
    Event.rangeWarning ids ∉ (extract_rule_ids_from_xml c).2 := by
  intro h
  rcases extract_events c _ h with h1 | ⟨p, h1⟩ <;> simp at h1

theorem extract_no_gitFailed (c : XmlContent) :
    Event.gitFailed ∉ (extract_rule_ids_from_xml c).2 := by
  intro h
  rcases extract_events c _ h with h1 | ⟨p, h1⟩ <;> simp at h1

theorem validate_events (ids : List Nat) (e : Event)
    (he : e ∈ validate_rule_id_range ids) : e = Event.rangeWarning (sortNat (rangeInvalid ids)) := by
  simp only [validate_rule_id_range] at he
  split at he
  · simp at he
  · simp only [List.mem_singleton] at he
    exact he

theorem validate_no_conflictRule (ids : List Nat) (i : Nat) (fs : List String) :
    Event.conflictRule i fs ∉ validate_rule_id_range ids := by
  intro h
  have := validate_events ids _ h
  simp at this

theorem validate_no_gitFailed (ids : List Nat) :
    Event.gitFailed ∉ validate_rule_id_range ids := by
  intro h
  have := validate_events ids _ h
  simp at this

theorem mem_print_conflicts (ids : List Nat) (idx : ReferenceIndex) (i : Nat)
    (hi : i ∈ ids) :
    Event.conflictRule i (sortStr (indexGet idx i)) ∈ print_conflicts ids idx := by
  simp only [print_conflicts, List.mem_cons, List.mem_map]
  exact Or.inr ⟨i, (mem_sortLe _ i ids).mpr hi, rfl⟩

theorem print_conflicts_events (ids : List Nat) (idx : ReferenceIndex) (e : Event)
    (he : e ∈ print_conflicts ids idx) :
    e = Event.conflictsDetected
      ∨ ∃ i, i ∈ ids ∧ e = Event.conflictRule i (sortStr (indexGet idx i)) := by
  simp only [print_conflicts, List.mem_cons, List.mem_map] at he
  rcases he with rfl | ⟨i, hi, rfl⟩
  · exact Or.inl rfl
  · exact Or.inr ⟨i, (mem_sortLe _ i ids).mp hi, rfl⟩

theorem print_conflicts_exists (ids : List Nat) (idx : ReferenceIndex)
    (h : ids ≠ []) :
    ∃ i fs, Event.conflictRule i fs ∈ print_conflicts ids idx := by
  rcases List.exists_mem_of_ne_nil _ h with ⟨i, hi⟩
  exact ⟨i, sortStr (indexGet idx i), mem_print_conflicts ids idx i hi⟩

theorem extractLoop_clean (rules : List (Option String)) (acc : List Nat)
    (h : ∀ s, some s ∈ rules → pyStrIsDigit s = true → pyIntOk s = true) :
    extractLoop rules acc
      = (acc ++ ((attrVals rules).filter pyStrIsDigit).map decimalVal, []) := by
  induction rules generalizing acc with
  | nil => simp [extractLoop, attrVals]
  | cons o rest ih =>
    have hrest : ∀ s, some s ∈ rest → pyStrIsDigit s = true → pyIntOk s = true :=
      fun s hs => h s (List.mem_cons_of_mem o hs)
    cases o with
    | none =>
      rw [show extractLoop (none :: rest) acc = extractLoop rest acc from rfl,
        ih _ hrest]
      rfl
    | some s =>
      by_cases hs : pyStrIsDigit s = true
      · have hok := h s (List.mem_cons_self _ _) hs
        simp only [extractLoop]
        rw [if_pos hs, if_pos hok, ih _ hrest]
        simp [attrVals, List.filter_cons, hs, List.append_assoc]
      · simp only [extractLoop]
        rw [if_neg hs, ih _ hrest]
        simp [attrVals, List.filter_cons, hs]

theorem extractLoop_abort (pre suf : List (Option String)) (s : String) (acc : List Nat)
    (hpre : ∀ t, some t ∈ pre → pyStrIsDigit t = true → pyIntOk t = true)
    (hs : pyStrIsDigit s = true) (hbad : pyIntOk s = false) :
    extractLoop (pre ++ some s :: suf) acc
      = (acc ++ ((attrVals pre).filter pyStrIsDigit).map decimalVal,
         [Event.unexpectedFailure]) := by
  induction pre generalizing acc with
  | nil =>
    simp only [List.nil_append, extractLoop]
    rw [if_pos hs, if_neg (by simp [hbad])]
    simp [attrVals]
  | cons o rest ih =>
    have hrest : ∀ t, some t ∈ rest → pyStrIsDigit t = true → pyIntOk t = true :=
      fun t ht => hpre t (List.mem_cons_of_mem o ht)
    cases o with
    | none =>
      rw [show (none :: rest) ++ some s :: suf = none :: (rest ++ some s :: suf) from rfl,
        show extractLoop (none :: (rest ++ some s :: suf)) acc
          = extractLoop (rest ++ some s :: suf) acc from rfl,
        ih _ hrest]
      rfl
    | some t =>
      rw [show (some t :: rest) ++ some s :: suf = some t :: (rest ++ some s :: suf) from rfl]
      by_cases ht : pyStrIsDigit t = true
      · have hok := hpre t (List.mem_cons_self _ _) ht
        simp only [extractLoop]
        rw [if_pos ht, if_pos hok, ih _ hrest]
        simp [attrVals, List.filter_cons, ht, List.append_assoc]
      · simp only [extractLoop]
        rw [if_neg ht, ih _ hrest]
        simp [attrVals, List.filter_cons, ht]

/-! ### Lemmas about the reference index -/

theorem indexAdd_nodup (idx : ReferenceIndex) (i : Nat) (f : String)
    (h : ∀ p ∈ idx, p.2.Nodup) : ∀ p ∈ indexAdd idx i f, p.2.Nodup := by
  induction idx with
  | nil =>
    intro p hp
    simp only [indexAdd, List.mem_singleton] at hp
    subst hp
    simp
  | cons q rest ih =>
    have hq := h q (List.mem_cons_self q rest)
    have hrest : ∀ p ∈ rest, p.2.Nodup := fun p hp => h p (List.mem_cons_of_mem q hp)
    intro p hp
    obtain ⟨j, fs⟩ := q
    simp only [indexAdd] at hp
    split at hp
    · rcases List.mem_cons.mp hp with rfl | hp2
      · by_cases hf : f ∈ fs
        · have hfc : fs.contains f = true := by simpa using hf
          simpa [hfc, hf] using hq
        · have hfc : fs.contains f = false := by simpa using hf
          simp only [hfc, Bool.false_eq_true, if_false]
          simpa [List.nodup_append] using ⟨hq, hf⟩
      · exact hrest p hp2
    · rcases List.mem_cons.mp hp with rfl | hp2
      · exact hq
      · exact ih hrest p hp2

theorem foldl_indexAdd_nodup (ids : List Nat) (f : String) (idx : ReferenceIndex)
    (h : ∀ p ∈ idx, p.2.Nodup) :
    ∀ p ∈ ids.foldl (fun acc i => indexAdd acc i f) idx, p.2.Nodup := by
  induction ids generalizing idx with
  | nil => exact h
  | cons i rest ih =>
    simp only [List.foldl_cons]
    exact ih _ (indexAdd_nodup idx i f h)

theorem buildIndexLoop_nodup (git : Git) (files : List String) (idx : ReferenceIndex)
    (h : ∀ p ∈ idx, p.2.Nodup) (out : ReferenceIndex)
    (hout : buildIndexLoop git files idx = .ok out) :
    ∀ p ∈ out, p.2.Nodup := by
  induction files generalizing idx with
  | nil =>
    simp only [buildIndexLoop] at hout
    cases hout
    exact h
  | cons f rest ih =>
    simp only [buildIndexLoop] at hout
    cases hshow : git.showMain f with
    | none =>
      rw [hshow] at hout
      simp [run_git_command] at hout
    | some content =>
      rw [hshow] at hout
      simp only [run_git_command] at hout
      exact ih _ (foldl_indexAdd_nodup _ f idx h) hout

theorem buildIndexLoop_error (git : Git) (files : List String) (idx : ReferenceIndex)
    (f : String) (hf : f ∈ files) (hshow : git.showMain f = none) :
    buildIndexLoop git files idx = .error () := by
  induction files generalizing idx with
  | nil => cases hf
  | cons g rest ih =>
    simp only [buildIndexLoop]
    cases hg : git.showMain g with
    | none => simp [run_git_command]
    | some content =>
      simp only [run_git_command]
      rcases List.mem_cons.mp hf with rfl | hf2
      · rw [hg] at hshow
        cases hshow
      · exact ih _ hf2

/-! ### Branch reduction lemmas for processFile -/

theorem processFile_dup (idx : ReferenceIndex) (rt : String → Option XmlContent)
    (git : Git) (status path : String) (c : XmlContent)
    (hr : rt path = some c)
    (hne : (extract_rule_ids_from_xml c).1 ≠ [])
    (hdup : detect_duplicates (extract_rule_ids_from_xml c).1 ≠ []) :
    processFile idx rt git status path
      = ((extract_rule_ids_from_xml c).2
          ++ (validate_rule_id_range (extract_rule_ids_from_xml c).1
          ++ [Event.duplicateReport path
               (sortNat (detect_duplicates (extract_rule_ids_from_xml c).1))]),
         true) := by
  have h1 : (extract_rule_ids_from_xml c).1.isEmpty = false := by simp [hne]
  have h2 : (detect_duplicates (extract_rule_ids_from_xml c).1).isEmpty = false := by
    simp [hdup]
  simp [processFile, hr, h1, h2]

theorem processFile_A_conflict (idx : ReferenceIndex) (rt : String → Option XmlContent)
    (git : Git) (path : String) (c : XmlContent)
    (hr : rt path = some c)
    (hne : (extract_rule_ids_from_xml c).1 ≠ [])
    (hnd : detect_duplicates (extract_rule_ids_from_xml c).1 = [])
    (hc : pyInter (extract_rule_ids_from_xml c).1 (indexKeys idx) ≠ []) :
    processFile idx rt git "A" path
      = ((extract_rule_ids_from_xml c).2
          ++ (validate_rule_id_range (extract_rule_ids_from_xml c).1
          ++ print_conflicts (pyInter (extract_rule_ids_from_xml c).1 (indexKeys idx)) idx),
         true) := by
  have h1 : (extract_rule_ids_from_xml c).1.isEmpty = false := by simp [hne]
  have h2 : (pyInter (extract_rule_ids_from_xml c).1 (indexKeys idx)).isEmpty = false := by
    simp [hc]
  simp [processFile, hr, h1, hnd, h2]

theorem processFile_A_clean (idx : ReferenceIndex) (rt : String → Option XmlContent)
    (git : Git) (path : String) (c : XmlContent)
    (hr : rt path = some c)
    (hne : (extract_rule_ids_from_xml c).1 ≠ [])
    (hnd : detect_duplicates (extract_rule_ids_from_xml c).1 = [])
    (hc : pyInter (extract_rule_ids_from_xml c).1 (indexKeys idx) = []) :
    processFile idx rt git "A" path
      = ((extract_rule_ids_from_xml c).2
          ++ (validate_rule_id_range (extract_rule_ids_from_xml c).1
          ++ [Event.noConflictsNewFile path]),
         false) := by
  have h1 : (extract_rule_ids_from_xml c).1.isEmpty = false := by simp [hne]
  simp [processFile, hr, h1, hnd, hc]

theorem processFile_M_gitfail (idx : ReferenceIndex) (rt : String → Option XmlContent)
    (git : Git) (path : String) (c : XmlContent)
    (hr : rt path = some c)
    (hne : (extract_rule_ids_from_xml c).1 ≠ [])
    (hnd : detect_duplicates (extract_rule_ids_from_xml c).1 = [])
    (hm : git.showMain path = none) :
    processFile idx rt git "M" path
      = ((extract_rule_ids_from_xml c).2
          ++ (validate_rule_id_range (extract_rule_ids_from_xml c).1
          ++ [Event.gitFailed]),
         true) := by
  have h1 : (extract_rule_ids_from_xml c).1.isEmpty = false := by simp [hne]
  simp [processFile, hr, h1, hnd, get_rule_ids_from_main_version, run_git_command, hm]

theorem processFile_M_unchanged (idx : ReferenceIndex) (rt : String → Option XmlContent)
    (git : Git) (path : String) (c mc : XmlContent)
    (hr : rt path = some c)
    (hne : (extract_rule_ids_from_xml c).1 ≠ [])
    (hnd : detect_duplicates (extract_rule_ids_from_xml c).1 = [])
    (hm : git.showMain path = some mc)
    (heq : pySetEq (extract_rule_ids_from_xml c).1 (extract_rule_ids_from_xml mc).1 = true) :
    processFile idx rt git "M" path
      = ((extract_rule_ids_from_xml c).2
          ++ (validate_rule_id_range (extract_rule_ids_from_xml c).1
          ++ ((extract_rule_ids_from_xml mc).2
          ++ [Event.idsUnchanged path])),
         false) := by
  have h1 : (extract_rule_ids_from_xml c).1.isEmpty = false := by simp [hne]
  simp [processFile, hr, h1, hnd, get_rule_ids_from_main_version, run_git_command, hm, heq]

theorem processFile_M_conflict (idx : ReferenceIndex) (rt : String → Option XmlContent)
    (git : Git) (path : String) (c mc : XmlContent)
    (hr : rt path = some c)
    (hne : (extract_rule_ids_from_xml c).1 ≠ [])
    (hnd : detect_duplicates (extract_rule_ids_from_xml c).1 = [])
    (hm : git.showMain path = some mc)
    (heq : pySetEq (extract_rule_ids_from_xml c).1 (extract_rule_ids_from_xml mc).1 = false)
    (hc : pyInter (pyDiff (extract_rule_ids_from_xml c).1 (extract_rule_ids_from_xml mc).1)
            (indexKeys idx) ≠ []) :
    processFile idx rt git "M" path
      = ((extract_rule_ids_from_xml c).2
          ++ (validate_rule_id_range (extract_rule_ids_from_xml c).1
          ++ ((extract_rule_ids_from_xml mc).2
          ++ print_conflicts
               (pyInter (pyDiff (extract_rule_ids_from_xml c).1 (extract_rule_ids_from_xml mc).1)
                 (indexKeys idx)) idx)),
         true) := by
  have h1 : (extract_rule_ids_from_xml c).1.isEmpty = false := by simp [hne]
  have h2 : (pyInter (pyDiff (extract_rule_ids_from_xml c).1 (extract_rule_ids_from_xml mc).1)
      (indexKeys idx)).isEmpty = false := by simp [hc]
  simp [processFile, hr, h1, hnd, get_rule_ids_from_main_version, run_git_command, hm, heq, h2]

theorem processFile_M_clean (idx : ReferenceIndex) (rt : String → Option XmlContent)
    (git : Git) (path : String) (c mc : XmlContent)
    (hr : rt path = some c)
    (hne : (extract_rule_ids_from_xml c).1 ≠ [])
    (hnd : detect_duplicates (extract_rule_ids_from_xml c).1 = [])
    (hm : git.showMain path = some mc)
    (heq : pySetEq (extract_rule_ids_from_xml c).1 (extract_rule_ids_from_xml mc).1 = false)
    (hc : pyInter (pyDiff (extract_rule_ids_from_xml c).1 (extract_rule_ids_from_xml mc).1)
            (indexKeys idx) = []) :
    processFile idx rt git "M" path
      = ((extract_rule_ids_from_xml c).2
          ++ (validate_rule_id_range (extract_rule_ids_from_xml c).1
          ++ ((extract_rule_ids_from_xml mc).2
          ++ [Event.noConflictsModified path])),
         false) := by
  have h1 : (extract_rule_ids_from_xml c).1.isEmpty = false := by simp [hne]
  simp [processFile, hr, h1, hnd, get_rule_ids_from_main_version, run_git_command, hm, heq, hc]

theorem processFile_D (idx : ReferenceIndex) (rt : String → Option XmlContent)
    (git : Git) (path : String) (c : XmlContent)
    (hr : rt path = some c)
    (hne : (extract_rule_ids_from_xml c).1 ≠ [])
    (hnd : detect_duplicates (extract_rule_ids_from_xml c).1 = []) :
    processFile idx rt git "D" path
      = ((extract_rule_ids_from_xml c).2
          ++ (validate_rule_id_range (extract_rule_ids_from_xml c).1
          ++ [Event.fileDeleted path]),
         false) := by
  have h1 : (extract_rule_ids_from_xml c).1.isEmpty = false := by simp [hne]
  simp [processFile, hr, h1, hnd]

theorem processFile_other (idx : ReferenceIndex) (rt : String → Option XmlContent)
    (git : Git) (status path : String) (c : XmlContent)
    (hr : rt path = some c)
    (hne : (extract_rule_ids_from_xml c).1 ≠ [])
    (hnd : detect_duplicates (extract_rule_ids_from_xml c).1 = [])
    (hA : (status == "A") = false) (hM : (status == "M") = false)
    (hD : (status == "D") = false) :
    processFile idx rt git status path
      = ((extract_rule_ids_from_xml c).2
          ++ (validate_rule_id_range (extract_rule_ids_from_xml c).1 ++ []),
         false) := by
  have h1 : (extract_rule_ids_from_xml c).1.isEmpty = false := by simp [hne]
  simp [processFile, hr, h1, hnd, hA, hM, hD]

theorem get_rule_ids_per_file_in_main_eq (git : Git) (files : List String)
    (hfetch : git.fetchOk = true) (hls : git.lsTree = some files) :
    get_rule_ids_per_file_in_main git
      = buildIndexLoop git
          (files.filter (fun f => strBeginsWith f "rules/" && strFinishesWith f ".xml")) [] := by
  rw [get_rule_ids_per_file_in_main, hfetch, hls]
  rfl

theorem get_rule_ids_per_file_in_main_err_fetch (git : Git)
    (hfetch : git.fetchOk = false) :
    get_rule_ids_per_file_in_main git = .error () := by
  rw [get_rule_ids_per_file_in_main, hfetch]
  rfl

theorem get_rule_ids_per_file_in_main_err_ls (git : Git)
    (hfetch : git.fetchOk = true) (hls : git.lsTree = none) :
    get_rule_ids_per_file_in_main git = .error () := by
  rw [get_rule_ids_per_file_in_main, hfetch, hls]
  rfl

theorem bool_eq_false {b : Bool} (h : ¬ b = true) : b = false := by
  cases b
  · rfl
  · exact absurd rfl h

/-! ### Claim theorems -/

/-- C1: for a change-set file with status Added whose extracted devIds are
non-empty and duplicate-free, the run reports a hard conflict and fails
(sys.exit(1)) if and only if some devId is among the identifiers known as
keys of the reference index; when it fails, every conflicting identifier is
reported together with the reference-revision files owning it, and when the
intersection is empty no conflict is reported for the file. -/
theorem added_file_conflict_iff (idx : ReferenceIndex) (rt : String → Option XmlContent)
    (git : Git) (path : String) (c : XmlContent)
    (hr : rt path = some c)
    (hne : (extract_rule_ids_from_xml c).1 ≠ [])
    (hnd : detect_duplicates (extract_rule_ids_from_xml c).1 = []) :
    ((processFile idx rt git "A" path).2 = true
       ↔ ∃ i, i ∈ (extract_rule_ids_from_xml c).1 ∧ i ∈ indexKeys idx)
    ∧ (∀ i, i ∈ (extract_rule_ids_from_xml c).1 → i ∈ indexKeys idx →
        Event.conflictRule i (sortStr (indexGet idx i)) ∈ (processFile idx rt git "A" path).1)
    ∧ ((∀ i, i ∈ (extract_rule_ids_from_xml c).1 → i ∉ indexKeys idx) →
        ∀ i fs, Event.conflictRule i fs ∉ (processFile idx rt git "A" path).1) := by
  by_cases hc : pyInter (extract_rule_ids_from_xml c).1 (indexKeys idx) = []
  · have hres := processFile_A_clean idx rt git path c hr hne hnd hc
    have h1 : (processFile idx rt git "A" path).1
        = (extract_rule_ids_from_xml c).2
          ++ (validate_rule_id_range (extract_rule_ids_from_xml c).1
          ++ [Event.noConflictsNewFile path]) := by rw [hres]
    have h2 : (processFile idx rt git "A" path).2 = false := by rw [hres]
    refine ⟨?_, ?_, ?_⟩
    · rw [h2]
      constructor
      · intro h
        cases h
      · rintro ⟨i, hi, hk⟩
        exfalso
        have hmem := (mem_pyInter (extract_rule_ids_from_xml c).1 (indexKeys idx) i).mpr ⟨hi, hk⟩
        rw [hc] at hmem
        exact List.not_mem_nil i hmem
    · intro i hi hk
      exfalso
      have hmem := (mem_pyInter (extract_rule_ids_from_xml c).1 (indexKeys idx) i).mpr ⟨hi, hk⟩
      rw [hc] at hmem
      exact List.not_mem_nil i hmem
    · intro _ i fs hmem
      rw [h1] at hmem
      simp only [List.mem_append, List.mem_singleton] at hmem
      rcases hmem with hm1 | hm2 | hm3
      · exact extract_no_conflictRule c i fs hm1
      · exact validate_no_conflictRule _ i fs hm2
      · cases hm3
  · have hres := processFile_A_conflict idx rt git path c hr hne hnd hc
    have h1 : (processFile idx rt git "A" path).1
        = (extract_rule_ids_from_xml c).2
          ++ (validate_rule_id_range (extract_rule_ids_from_xml c).1
          ++ print_conflicts (pyInter (extract_rule_ids_from_xml c).1 (indexKeys idx)) idx) := by
      rw [hres]
    have h2 : (processFile idx rt git "A" path).2 = true := by rw [hres]
    refine ⟨?_, ?_, ?_⟩
    · rw [h2]
      constructor
      · intro _
        rcases (pyInter_ne_nil (extract_rule_ids_from_xml c).1 (indexKeys idx)).mp hc
          with ⟨i, hi, hk⟩
        exact ⟨i, hi, hk⟩
      · intro _
        rfl
    · intro i hi hk
      have hmem := (mem_pyInter (extract_rule_ids_from_xml c).1 (indexKeys idx) i).mpr ⟨hi, hk⟩
      have hev := mem_print_conflicts _ idx i hmem
      rw [h1]
      simp only [List.mem_append]
      exact Or.inr (Or.inr hev)
    · intro h
      exfalso
      rcases (pyInter_ne_nil (extract_rule_ids_from_xml c).1 (indexKeys idx)).mp hc
        with ⟨i, hi, hk⟩
      exact h i hi hk

/-- C3: a changed file whose devIds contain some value more than once makes
the run fail at that file for every change status, the report names exactly
the identifiers occurring at least twice, and no cross-file conflict line is
printed for the file. -/
theorem duplicate_ids_hard_stop (idx : ReferenceIndex) (rt : String → Option XmlContent)
    (git : Git) (status path : String) (c : XmlContent)
    (hr : rt path = some c)
    (hne : (extract_rule_ids_from_xml c).1 ≠ [])
    (hdup : detect_duplicates (extract_rule_ids_from_xml c).1 ≠ []) :
    (processFile idx rt git status path).2 = true
    ∧ Event.duplicateReport path (sortNat (detect_duplicates (extract_rule_ids_from_xml c).1))
        ∈ (processFile idx rt git status path).1
    ∧ (∀ i, i ∈ sortNat (detect_duplicates (extract_rule_ids_from_xml c).1)
        ↔ 2 ≤ (extract_rule_ids_from_xml c).1.count i)
    ∧ (∀ i fs, Event.conflictRule i fs ∉ (processFile idx rt git status path).1) := by
  have hres := processFile_dup idx rt git status path c hr hne hdup
  have h1 : (processFile idx rt git status path).1
      = (extract_rule_ids_from_xml c).2
        ++ (validate_rule_id_range (extract_rule_ids_from_xml c).1
        ++ [Event.duplicateReport path
             (sortNat (detect_duplicates (extract_rule_ids_from_xml c).1))]) := by rw [hres]
  have h2 : (processFile idx rt git status path).2 = true := by rw [hres]
  refine ⟨h2, ?_, ?_, ?_⟩
  · rw [h1]
    simp only [List.mem_append, List.mem_singleton]
    exact Or.inr (Or.inr trivial)
  · intro i
    rw [mem_sortNat, mem_detect_duplicates]
  · intro i fs hmem
    rw [h1] at hmem
    simp only [List.mem_append, List.mem_singleton] at hmem
    rcases hmem with hm1 | hm2 | hm3
    · exact extract_no_conflictRule c i fs hm1
    · exact validate_no_conflictRule _ i fs hm2
    · cases hm3

/-- C2: for a change-set file with status Modified whose devIds are
non-empty and duplicate-free, with mainIds extracted from the reference
revision of the same path: when the devId set equals the mainId set the file
passes with the ids-unchanged notice and no conflict check fires; otherwise
the run fails if and only if some identifier in devIds minus mainIds is a
key of the reference index, reported with its owning files exactly as for
Added files. -/
theorem modified_file_conflict_iff (idx : ReferenceIndex) (rt : String → Option XmlContent)
    (git : Git) (path : String) (c mc : XmlContent)
    (hr : rt path = some c)
    (hne : (extract_rule_ids_from_xml c).1 ≠ [])
    (hnd : detect_duplicates (extract_rule_ids_from_xml c).1 = [])
    (hm : git.showMain path = some mc) :
    ((∀ i, i ∈ (extract_rule_ids_from_xml c).1 ↔ i ∈ (extract_rule_ids_from_xml mc).1) →
        (processFile idx rt git "M" path).2 = false
        ∧ Event.idsUnchanged path ∈ (processFile idx rt git "M" path).1
        ∧ ∀ i fs, Event.conflictRule i fs ∉ (processFile idx rt git "M" path).1)
    ∧ ((¬ ∀ i, i ∈ (extract_rule_ids_from_xml c).1 ↔ i ∈ (extract_rule_ids_from_xml mc).1) →
        ((processFile idx rt git "M" path).2 = true
           ↔ ∃ i, i ∈ (extract_rule_ids_from_xml c).1
               ∧ i ∉ (extract_rule_ids_from_xml mc).1 ∧ i ∈ indexKeys idx)
        ∧ (∀ i, i ∈ (extract_rule_ids_from_xml c).1 →
             i ∉ (extract_rule_ids_from_xml mc).1 → i ∈ indexKeys idx →
             Event.conflictRule i (sortStr (indexGet idx i)) ∈ (processFile idx rt git "M" path).1)
        ∧ ((∀ i, i ∈ (extract_rule_ids_from_xml c).1 →
              i ∉ (extract_rule_ids_from_xml mc).1 → i ∉ indexKeys idx) →
             ∀ i fs, Event.conflictRule i fs ∉ (processFile idx rt git "M" path).1)) := by
  constructor
  · intro hsets
    have heq : pySetEq (extract_rule_ids_from_xml c).1 (extract_rule_ids_from_xml mc).1 = true :=
      (pySetEq_iff _ _).mpr hsets
    have hres := processFile_M_unchanged idx rt git path c mc hr hne hnd hm heq
    have h1 : (processFile idx rt git "M" path).1
        = (extract_rule_ids_from_xml c).2
          ++ (validate_rule_id_range (extract_rule_ids_from_xml c).1
          ++ ((extract_rule_ids_from_xml mc).2
          ++ [Event.idsUnchanged path])) := by rw [hres]
    have h2 : (processFile idx rt git "M" path).2 = false := by rw [hres]
    refine ⟨h2, ?_, ?_⟩
    · rw [h1]
      simp only [List.mem_append, List.mem_singleton]
      exact Or.inr (Or.inr (Or.inr trivial))
    · intro i fs hmem
      rw [h1] at hmem
      simp only [List.mem_append, List.mem_singleton] at hmem
      rcases hmem with hm1 | hm2 | hm3 | hm4
      · exact extract_no_conflictRule c i fs hm1
      · exact validate_no_conflictRule _ i fs hm2
      · exact extract_no_conflictRule mc i fs hm3
      · cases hm4
  · intro hsets
    have heq : pySetEq (extract_rule_ids_from_xml c).1 (extract_rule_ids_from_xml mc).1 = false := by
      cases hv : pySetEq (extract_rule_ids_from_xml c).1 (extract_rule_ids_from_xml mc).1
      · rfl
      · exact absurd ((pySetEq_iff _ _).mp hv) hsets
    by_cases hc : pyInter (pyDiff (extract_rule_ids_from_xml c).1 (extract_rule_ids_from_xml mc).1)
        (indexKeys idx) = []
    · have hres := processFile_M_clean idx rt git path c mc hr hne hnd hm heq hc
      have h1 : (processFile idx rt git "M" path).1
          = (extract_rule_ids_from_xml c).2
            ++ (validate_rule_id_range (extract_rule_ids_from_xml c).1
            ++ ((extract_rule_ids_from_xml mc).2
            ++ [Event.noConflictsModified path])) := by rw [hres]
      have h2 : (processFile idx rt git "M" path).2 = false := by rw [hres]
      refine ⟨?_, ?_, ?_⟩
      · rw [h2]
        constructor
        · intro h
          cases h
        · rintro ⟨i, hi, hni, hk⟩
          exfalso
          have hd := (mem_pyDiff (extract_rule_ids_from_xml c).1
            (extract_rule_ids_from_xml mc).1 i).mpr ⟨hi, hni⟩
          have hmem := (mem_pyInter _ (indexKeys idx) i).mpr ⟨hd, hk⟩
          rw [hc] at hmem
          exact List.not_mem_nil i hmem
      · intro i hi hni hk
        exfalso
        have hd := (mem_pyDiff (extract_rule_ids_from_xml c).1
          (extract_rule_ids_from_xml mc).1 i).mpr ⟨hi, hni⟩
        have hmem := (mem_pyInter _ (indexKeys idx) i).mpr ⟨hd, hk⟩
        rw [hc] at hmem
        exact List.not_mem_nil i hmem
      · intro _ i fs hmem
        rw [h1] at hmem
        simp only [List.mem_append, List.mem_singleton] at hmem
        rcases hmem with hm1 | hm2 | hm3 | hm4
        · exact extract_no_conflictRule c i fs hm1
        · exact validate_no_conflictRule _ i fs hm2
        · exact extract_no_conflictRule mc i fs hm3
        · cases hm4
    · have hres := processFile_M_conflict idx rt git path c mc hr hne hnd hm heq hc
      have h1 : (processFile idx rt git "M" path).1
          = (extract_rule_ids_from_xml c).2
            ++ (validate_rule_id_range (extract_rule_ids_from_xml c).1
            ++ ((extract_rule_ids_from_xml mc).2
            ++ print_conflicts
                 (pyInter (pyDiff (extract_rule_ids_from_xml c).1
                    (extract_rule_ids_from_xml mc).1) (indexKeys idx)) idx)) := by rw [hres]
      have h2 : (processFile idx rt git "M" path).2 = true := by rw [hres]
      refine ⟨?_, ?_, ?_⟩
      · rw [h2]
        constructor
        · intro _
          rcases (pyInter_ne_nil _ _).mp hc with ⟨i, hd, hk⟩
          rcases (mem_pyDiff _ _ i).mp hd with ⟨hi, hni⟩
          exact ⟨i, hi, hni, hk⟩
        · intro _
          rfl
      · intro i hi hni hk
        have hd := (mem_pyDiff (extract_rule_ids_from_xml c).1
          (extract_rule_ids_from_xml mc).1 i).mpr ⟨hi, hni⟩
        have hmem := (mem_pyInter _ (indexKeys idx) i).mpr ⟨hd, hk⟩
        have hev := mem_print_conflicts _ idx i hmem
        rw [h1]
        simp only [List.mem_append]
        exact Or.inr (Or.inr (Or.inr hev))
      · intro h
        exfalso
        rcases (pyInter_ne_nil _ _).mp hc with ⟨i, hd, hk⟩
        rcases (mem_pyDiff _ _ i).mp hd with ⟨hi, hni⟩
        exact h i hi hni hk

/-- C4 refuted: for a Modified file whose path is absent from the reference
revision (git show fails), the run does NOT continue with an empty mainIds;
run_git_command prints the git failure and exits the whole run, because the
except-CalledProcessError clause of get_rule_ids_from_main_version never
sees the SystemExit raised inside run_git_command. -/
theorem modified_missing_in_main_aborts (idx : ReferenceIndex)
    (rt : String → Option XmlContent) (git : Git) (path : String) (c : XmlContent)
    (hr : rt path = some c)
    (hne : (extract_rule_ids_from_xml c).1 ≠ [])
    (hnd : detect_duplicates (extract_rule_ids_from_xml c).1 = [])
    (hm : git.showMain path = none) :
    (processFile idx rt git "M" path).2 = true
    ∧ Event.gitFailed ∈ (processFile idx rt git "M" path).1
    ∧ get_rule_ids_from_main_version git path = .error () := by
  have hres := processFile_M_gitfail idx rt git path c hr hne hnd hm
  have h1 : (processFile idx rt git "M" path).1
      = (extract_rule_ids_from_xml c).2
        ++ (validate_rule_id_range (extract_rule_ids_from_xml c).1
        ++ [Event.gitFailed]) := by rw [hres]
  have h2 : (processFile idx rt git "M" path).2 = true := by rw [hres]
  refine ⟨h2, ?_, ?_⟩
  · rw [h1]
    simp only [List.mem_append, List.mem_singleton]
    exact Or.inr (Or.inr trivial)
  · simp [get_rule_ids_from_main_version, run_git_command, hm]

/-- C5 refuted: during reference-index construction, a single rule file
whose content cannot be fetched is NOT skipped with a warning; the failing
git show exits the whole run inside run_git_command (the skip-with-warning
except clause at lines 71-73 is dead code). -/
theorem index_build_aborts_on_file_fetch_failure (git : Git) (files : List String)
    (f : String)
    (hfetch : git.fetchOk = true) (hls : git.lsTree = some files)
    (hf : f ∈ files.filter (fun g => strBeginsWith g "rules/" && strFinishesWith g ".xml"))
    (hshow : git.showMain f = none) :
    get_rule_ids_per_file_in_main git = .error () := by
  rw [get_rule_ids_per_file_in_main_eq git files hfetch hls]
  exact buildIndexLoop_error git _ [] f hf hshow

/-- C9: every entry of a successfully built reference index maps its
identifier to a duplicate-free file set: a file contributes at most one
membership entry per identifier even when its content declares the same
identifier several times. -/
theorem reference_index_entries_nodup (git : Git) (idx : ReferenceIndex)
    (h : get_rule_ids_per_file_in_main git = .ok idx) :
    ∀ p ∈ idx, p.2.Nodup := by
  by_cases hfetch : git.fetchOk = true
  · cases hls : git.lsTree with
    | none =>
      rw [get_rule_ids_per_file_in_main_err_ls git hfetch hls] at h
      cases h
    | some files =>
      rw [get_rule_ids_per_file_in_main_eq git files hfetch hls] at h
      exact buildIndexLoop_nodup git _ [] (by simp) idx h
  · have hfetch' : git.fetchOk = false := by
      cases hv : git.fetchOk
      · rfl
      · exact absurd hv hfetch
    rw [get_rule_ids_per_file_in_main_err_fetch git hfetch'] at h
    cases h

/-- C6 counterexample: in content whose rule elements carry ids "²" then
"5", the value "5" is present, non-empty and composed entirely of decimal
digits, yet it is not in the extractor output: "²" passes Python's isdigit
test, int("²") raises, and the exception aborts extraction before "5" is
reached. -/
theorem extractor_digit_filter_cex :
    (some "5" ∈ ([some "²", some "5"] : List (Option String)))
    ∧ ("5".toList.isEmpty = false)
    ∧ ("5".toList.all Char.isDigit = true)
    ∧ decimalVal "5" ∉ (extract_rule_ids_from_xml (.parsed [some "²", some "5"])).1 := by
  decide

/-- C6 (amended): provided no id attribute value in the content passes the
Python digit test while failing integer conversion, the extractor output is
exactly the conversions of the attribute values that are present, non-empty
and composed entirely of decimal digits, in document order — so a value is
included iff those three conditions hold, and a value containing any
non-digit character is never included. -/
theorem extractor_keeps_exactly_decimal_ids (rules : List (Option String))
    (hclean : ∀ s, some s ∈ rules → pyStrIsDigit s = true → pyIntOk s = true) :
    (extract_rule_ids_from_xml (.parsed rules)).1
      = ((attrVals rules).filter
          (fun s => !s.toList.isEmpty && s.toList.all Char.isDigit)).map decimalVal := by
  rw [show extract_rule_ids_from_xml (.parsed rules) = extractLoop rules [] from rfl,
    extractLoop_clean rules [] hclean]
  simp only [List.nil_append]
  congr 1
  apply List.filter_congr
  intro s hs
  rw [mem_attrVals rules s] at hs
  by_cases h1 : pyStrIsDigit s = true
  · have hok := hclean s hs h1
    have hparts := h1
    simp only [pyStrIsDigit, Bool.and_eq_true] at hparts
    have hokl : s.toList.all Char.isDigit = true := hok
    rw [h1, hparts.1, hokl]
    rfl
  · have h1f : pyStrIsDigit s = false := by
      cases hv : pyStrIsDigit s
      · rfl
      · exact absurd hv h1
    rw [h1f]
    cases hv : (!s.toList.isEmpty && s.toList.all Char.isDigit)
    · rfl
    · exfalso
      rw [Bool.and_eq_true] at hv
      obtain ⟨hA, hB⟩ := hv
      have hall : s.toList.all pyIsDigit = true := by
        rw [List.all_eq_true] at hB ⊢
        intro cch hc
        have hd := hB cch hc
        simp only [pyIsDigit, Bool.or_eq_true]
        exact Or.inl hd
      have : pyStrIsDigit s = true := by
        show (!s.toList.isEmpty && s.toList.all pyIsDigit) = true
        rw [hA, hall]
        rfl
      exact absurd this h1

/-- C7: the extractor never fails the run on bad content: blank content
yields no ids and no diagnostics, unparseable content yields no ids plus
the parse-failure diagnostic carrying the first 200 characters, and
parseable content with no rule elements yields no ids and no diagnostics. -/
theorem extractor_handles_empty_and_malformed (raw : String) :
    extract_rule_ids_from_xml .blank = ([], [])
    ∧ extract_rule_ids_from_xml (.malformed raw)
        = ([], [Event.parseFailure (String.mk (raw.toList.take 200))])
    ∧ extract_rule_ids_from_xml (.parsed []) = ([], []) :=
  ⟨rfl, rfl, rfl⟩

/-- C10: the extractor is total and catches conversion failures internally:
when a rule element's id passes the digit test but fails integer conversion
(and every earlier element converts cleanly), the result is the identifiers
accumulated before the failing element, with the unexpected-error
diagnostic, regardless of what follows. -/
theorem extractor_total_keeps_prefix_on_failure (pre suf : List (Option String)) (s : String)
    (hpre : ∀ t, some t ∈ pre → pyStrIsDigit t = true → pyIntOk t = true)
    (hs : pyStrIsDigit s = true) (hbad : pyIntOk s = false) :
    extract_rule_ids_from_xml (.parsed (pre ++ some s :: suf))
      = (((attrVals pre).filter pyStrIsDigit).map decimalVal,
         [Event.unexpectedFailure]) := by
  rw [show extract_rule_ids_from_xml (.parsed (pre ++ some s :: suf))
      = extractLoop (pre ++ some s :: suf) [] from rfl,
    extractLoop_abort pre suf s [] hpre hs hbad]
  rfl

/-- C8: identifiers outside the inclusive range [100000, 120000] are
exactly the ones collected as invalid, the boundary values 100000 and
120000 produce no warning while 99999 and 120001 do, a file with an
out-of-range identifier gets the range warning printed, and a range warning
alone never fails the run: whenever the run fails at a duplicate-free file,
a conflict report or a git failure is present. -/
theorem range_advisory_never_blocks (idx : ReferenceIndex) (rt : String → Option XmlContent)
    (git : Git) (status path : String) (c : XmlContent)
    (hr : rt path = some c)
    (hne : (extract_rule_ids_from_xml c).1 ≠ []) :
    (validate_rule_id_range [100000, 120000] = []
      ∧ validate_rule_id_range [99999] = [Event.rangeWarning [99999]]
      ∧ validate_rule_id_range [120001] = [Event.rangeWarning [120001]])
    ∧ (∀ i, i ∈ rangeInvalid (extract_rule_ids_from_xml c).1
         ↔ i ∈ (extract_rule_ids_from_xml c).1 ∧ ¬ (100000 ≤ i ∧ i ≤ 120000))
    ∧ (rangeInvalid (extract_rule_ids_from_xml c).1 ≠ [] →
        Event.rangeWarning (sortNat (rangeInvalid (extract_rule_ids_from_xml c).1))
          ∈ (processFile idx rt git status path).1)
    ∧ (detect_duplicates (extract_rule_ids_from_xml c).1 = [] →
        (processFile idx rt git status path).2 = true →
        (∃ i fs, Event.conflictRule i fs ∈ (processFile idx rt git status path).1)
        ∨ Event.gitFailed ∈ (processFile idx rt git status path).1) := by
  refine ⟨⟨by decide, by decide, by decide⟩, ?_, ?_, ?_⟩
  · intro i
    simp only [rangeInvalid, List.mem_filter, decide_eq_true_eq]
  · intro hinv
    have hdecomp : ∃ rest b, processFile idx rt git status path
        = ((extract_rule_ids_from_xml c).2
            ++ (validate_rule_id_range (extract_rule_ids_from_xml c).1 ++ rest), b) := by
      by_cases hnd : detect_duplicates (extract_rule_ids_from_xml c).1 = []
      · by_cases hA : (status == "A") = true
        · have hsA : status = "A" := by simpa using hA
          subst hsA
          by_cases hc : pyInter (extract_rule_ids_from_xml c).1 (indexKeys idx) = []
          · exact ⟨_, _, processFile_A_clean idx rt git path c hr hne hnd hc⟩
          · exact ⟨_, _, processFile_A_conflict idx rt git path c hr hne hnd hc⟩
        · by_cases hM : (status == "M") = true
          · have hsM : status = "M" := by simpa using hM
            subst hsM
            cases hm : git.showMain path with
            | none => exact ⟨_, _, processFile_M_gitfail idx rt git path c hr hne hnd hm⟩
            | some mc =>
              by_cases heq : pySetEq (extract_rule_ids_from_xml c).1
                  (extract_rule_ids_from_xml mc).1 = true
              · exact ⟨_, _, processFile_M_unchanged idx rt git path c mc hr hne hnd hm heq⟩
              · have heq' := bool_eq_false heq
                by_cases hc : pyInter (pyDiff (extract_rule_ids_from_xml c).1
                    (extract_rule_ids_from_xml mc).1) (indexKeys idx) = []
                · exact ⟨_, _, processFile_M_clean idx rt git path c mc hr hne hnd hm heq' hc⟩
                · exact ⟨_, _, processFile_M_conflict idx rt git path c mc hr hne hnd hm heq' hc⟩
          · by_cases hD : (status == "D") = true
            · have hsD : status = "D" := by simpa using hD
              subst hsD
              exact ⟨_, _, processFile_D idx rt git path c hr hne hnd⟩
            · exact ⟨_, _, processFile_other idx rt git status path c hr hne hnd
                (bool_eq_false hA) (bool_eq_false hM) (bool_eq_false hD)⟩
      · exact ⟨_, _, processFile_dup idx rt git status path c hr hne hnd⟩
    rcases hdecomp with ⟨rest, b, hres⟩
    have h1 : (processFile idx rt git status path).1
        = (extract_rule_ids_from_xml c).2
          ++ (validate_rule_id_range (extract_rule_ids_from_xml c).1 ++ rest) := by rw [hres]
    have hinv' : (rangeInvalid (extract_rule_ids_from_xml c).1).isEmpty = false := by
      simp [hinv]
    have hval : validate_rule_id_range (extract_rule_ids_from_xml c).1
        = [Event.rangeWarning (sortNat (rangeInvalid (extract_rule_ids_from_xml c).1))] := by
      rw [validate_rule_id_range, hinv']
      rfl
    rw [h1, hval]
    simp only [List.mem_append, List.mem_singleton]
    exact Or.inr (Or.inl trivial)
  · intro hnd hexit
    by_cases hA : (status == "A") = true
    · have hsA : status = "A" := by simpa using hA
      subst hsA
      by_cases hc : pyInter (extract_rule_ids_from_xml c).1 (indexKeys idx) = []
      · rw [processFile_A_clean idx rt git path c hr hne hnd hc] at hexit
        simp at hexit
      · have hres := processFile_A_conflict idx rt git path c hr hne hnd hc
        have h1 : (processFile idx rt git "A" path).1
            = (extract_rule_ids_from_xml c).2
              ++ (validate_rule_id_range (extract_rule_ids_from_xml c).1
              ++ print_conflicts (pyInter (extract_rule_ids_from_xml c).1 (indexKeys idx)) idx) := by
          rw [hres]
        rcases print_conflicts_exists _ idx hc with ⟨i, fs, hev⟩
        refine Or.inl ⟨i, fs, ?_⟩
        rw [h1]
        simp only [List.mem_append]
        exact Or.inr (Or.inr hev)
    · by_cases hM : (status == "M") = true
      · have hsM : status = "M" := by simpa using hM
        subst hsM
        cases hm : git.showMain path with
        | none =>
          have hres := processFile_M_gitfail idx rt git path c hr hne hnd hm
          have h1 : (processFile idx rt git "M" path).1
              = (extract_rule_ids_from_xml c).2
                ++ (validate_rule_id_range (extract_rule_ids_from_xml c).1
                ++ [Event.gitFailed]) := by rw [hres]
          refine Or.inr ?_
          rw [h1]
          simp only [List.mem_append, List.mem_singleton]
          exact Or.inr (Or.inr trivial)
        | some mc =>
          by_cases heq : pySetEq (extract_rule_ids_from_xml c).1
              (extract_rule_ids_from_xml mc).1 = true
          · rw [processFile_M_unchanged idx rt git path c mc hr hne hnd hm heq] at hexit
            simp at hexit
          · have heq' := bool_eq_false heq
            by_cases hc : pyInter (pyDiff (extract_rule_ids_from_xml c).1
                (extract_rule_ids_from_xml mc).1) (indexKeys idx) = []
            · rw [processFile_M_clean idx rt git path c mc hr hne hnd hm heq' hc] at hexit
              simp at hexit
            · have hres := processFile_M_conflict idx rt git path c mc hr hne hnd hm heq' hc
              have h1 : (processFile idx rt git "M" path).1
                  = (extract_rule_ids_from_xml c).2
                    ++ (validate_rule_id_range (extract_rule_ids_from_xml c).1
                    ++ ((extract_rule_ids_from_xml mc).2
                    ++ print_conflicts
                         (pyInter (pyDiff (extract_rule_ids_from_xml c).1
                            (extract_rule_ids_from_xml mc).1) (indexKeys idx)) idx)) := by
                rw [hres]
              rcases print_conflicts_exists _ idx hc with ⟨i, fs, hev⟩
              refine Or.inl ⟨i, fs, ?_⟩
              rw [h1]
              simp only [List.mem_append]
              exact Or.inr (Or.inr (Or.inr hev))
      · by_cases hD : (status == "D") = true
        · have hsD : status = "D" := by simpa using hD
          subst hsD
          rw [processFile_D idx rt git path c hr hne hnd] at hexit
          simp at hexit
        · rw [processFile_other idx rt git status path c hr hne hnd
            (bool_eq_false hA) (bool_eq_false hM) (bool_eq_false hD)] at hexit
          simp at hexit

/-! ### Evaluation (witness) theorems -/

/-- Evaluation of added_file_conflict_iff at the spec's example scenario:
rules/b.xml is added with identifier 100010 already owned by rules/a.xml. -/
theorem added_file_conflict_iff_witness :
    ((processFile wIdx wReadConflict wGitNone "A" "rules/b.xml").2 = true
       ↔ ∃ i, i ∈ (extract_rule_ids_from_xml wContentConflict).1 ∧ i ∈ indexKeys wIdx)
    ∧ (∀ i, i ∈ (extract_rule_ids_from_xml wContentConflict).1 → i ∈ indexKeys wIdx →
        Event.conflictRule i (sortStr (indexGet wIdx i))
          ∈ (processFile wIdx wReadConflict wGitNone "A" "rules/b.xml").1)
    ∧ ((∀ i, i ∈ (extract_rule_ids_from_xml wContentConflict).1 → i ∉ indexKeys wIdx) →
        ∀ i fs, Event.conflictRule i fs
          ∉ (processFile wIdx wReadConflict wGitNone "A" "rules/b.xml").1) :=
  added_file_conflict_iff wIdx wReadConflict wGitNone "rules/b.xml" wContentConflict rfl
    (by decide) (by decide)

/-- Evaluation of modified_file_conflict_iff: rules/b.xml is modified from
main ids [100011] to working ids [100010], with 100010 owned by
rules/a.xml in the index. -/
theorem modified_file_conflict_iff_witness :
    ((∀ i, i ∈ (extract_rule_ids_from_xml wContentConflict).1
          ↔ i ∈ (extract_rule_ids_from_xml wContentMain).1) →
        (processFile wIdx wReadConflict wGitMain "M" "rules/b.xml").2 = false
        ∧ Event.idsUnchanged "rules/b.xml"
            ∈ (processFile wIdx wReadConflict wGitMain "M" "rules/b.xml").1
        ∧ ∀ i fs, Event.conflictRule i fs
            ∉ (processFile wIdx wReadConflict wGitMain "M" "rules/b.xml").1)
    ∧ ((¬ ∀ i, i ∈ (extract_rule_ids_from_xml wContentConflict).1
          ↔ i ∈ (extract_rule_ids_from_xml wContentMain).1) →
        ((processFile wIdx wReadConflict wGitMain "M" "rules/b.xml").2 = true
           ↔ ∃ i, i ∈ (extract_rule_ids_from_xml wContentConflict).1
               ∧ i ∉ (extract_rule_ids_from_xml wContentMain).1 ∧ i ∈ indexKeys wIdx)
        ∧ (∀ i, i ∈ (extract_rule_ids_from_xml wContentConflict).1 →
             i ∉ (extract_rule_ids_from_xml wContentMain).1 → i ∈ indexKeys wIdx →
             Event.conflictRule i (sortStr (indexGet wIdx i))
               ∈ (processFile wIdx wReadConflict wGitMain "M" "rules/b.xml").1)
        ∧ ((∀ i, i ∈ (extract_rule_ids_from_xml wContentConflict).1 →
              i ∉ (extract_rule_ids_from_xml wContentMain).1 → i ∉ indexKeys wIdx) →
             ∀ i fs, Event.conflictRule i fs
               ∉ (processFile wIdx wReadConflict wGitMain "M" "rules/b.xml").1)) :=
  modified_file_conflict_iff wIdx wReadConflict wGitMain "rules/b.xml" wContentConflict
    wContentMain rfl (by decide) (by decide) rfl

/-- Evaluation of duplicate_ids_hard_stop on a deleted file declaring
100050 twice: the duplicate check fires regardless of the status. -/
theorem duplicate_ids_hard_stop_witness :
    (processFile wIdx wReadDup wGitNone "D" "rules/c.xml").2 = true
    ∧ Event.duplicateReport "rules/c.xml"
        (sortNat (detect_duplicates (extract_rule_ids_from_xml wContentDup).1))
        ∈ (processFile wIdx wReadDup wGitNone "D" "rules/c.xml").1
    ∧ (∀ i, i ∈ sortNat (detect_duplicates (extract_rule_ids_from_xml wContentDup).1)
        ↔ 2 ≤ (extract_rule_ids_from_xml wContentDup).1.count i)
    ∧ (∀ i fs, Event.conflictRule i fs
        ∉ (processFile wIdx wReadDup wGitNone "D" "rules/c.xml").1) :=
  duplicate_ids_hard_stop wIdx wReadDup wGitNone "D" "rules/c.xml" wContentDup rfl
    (by decide) (by decide)

/-- Evaluation of modified_missing_in_main_aborts: a modified file whose
path git show cannot serve makes the run exit instead of continuing. -/
theorem modified_missing_in_main_aborts_witness :
    (processFile wIdx wReadConflict wGitNone "M" "rules/new.xml").2 = true
    ∧ Event.gitFailed ∈ (processFile wIdx wReadConflict wGitNone "M" "rules/new.xml").1
    ∧ get_rule_ids_from_main_version wGitNone "rules/new.xml" = .error () :=
  modified_missing_in_main_aborts wIdx wReadConflict wGitNone "rules/new.xml"
    wContentConflict rfl (by decide) (by decide) rfl

/-- Evaluation of index_build_aborts_on_file_fetch_failure: one listed rule
file that git show cannot serve aborts index construction. -/
theorem index_build_aborts_on_file_fetch_failure_witness :
    get_rule_ids_per_file_in_main wGitLsFails = .error () :=
  index_build_aborts_on_file_fetch_failure wGitLsFails ["rules/a.xml"] "rules/a.xml"
    rfl rfl (by decide) rfl

/-- Evaluation of extractor_keeps_exactly_decimal_ids on content with a
valid id, an empty id, a missing id and a non-numeric id. -/
theorem extractor_keeps_exactly_decimal_ids_witness :
    (extract_rule_ids_from_xml (.parsed [some "100010", some "", none, some "12a"])).1
      = ((attrVals [some "100010", some "", none, some "12a"]).filter
          (fun s => !s.toList.isEmpty && s.toList.all Char.isDigit)).map decimalVal :=
  extractor_keeps_exactly_decimal_ids [some "100010", some "", none, some "12a"]
    (by
      intro s hs h1
      simp only [List.mem_cons, List.not_mem_nil, or_false] at hs
      rcases hs with h | h | h | h
      · obtain rfl := Option.some.inj h
        revert h1
        decide
      · obtain rfl := Option.some.inj h
        revert h1
        decide
      · exact Option.noConfusion h
      · obtain rfl := Option.some.inj h
        revert h1
        decide)

/-- Evaluation of range_advisory_never_blocks on a deleted file declaring
the out-of-range identifier 99999. -/
theorem range_advisory_never_blocks_witness :
    (validate_rule_id_range [100000, 120000] = []
      ∧ validate_rule_id_range [99999] = [Event.rangeWarning [99999]]
      ∧ validate_rule_id_range [120001] = [Event.rangeWarning [120001]])
    ∧ (∀ i, i ∈ rangeInvalid (extract_rule_ids_from_xml wContentRange).1
         ↔ i ∈ (extract_rule_ids_from_xml wContentRange).1 ∧ ¬ (100000 ≤ i ∧ i ≤ 120000))
    ∧ (rangeInvalid (extract_rule_ids_from_xml wContentRange).1 ≠ [] →
        Event.rangeWarning (sortNat (rangeInvalid (extract_rule_ids_from_xml wContentRange).1))
          ∈ (processFile wIdx wReadRange wGitNone "D" "rules/r.xml").1)
    ∧ (detect_duplicates (extract_rule_ids_from_xml wContentRange).1 = [] →
        (processFile wIdx wReadRange wGitNone "D" "rules/r.xml").2 = true →
        (∃ i fs, Event.conflictRule i fs
            ∈ (processFile wIdx wReadRange wGitNone "D" "rules/r.xml").1)
        ∨ Event.gitFailed ∈ (processFile wIdx wReadRange wGitNone "D" "rules/r.xml").1) :=
  range_advisory_never_blocks wIdx wReadRange wGitNone "D" "rules/r.xml" wContentRange rfl
    (by decide)

/-- Evaluation of reference_index_entries_nodup on a reference revision in
which rules/a.xml declares 100001 twice: the index still records the file
once. -/
theorem reference_index_entries_nodup_witness :
    ((100001, ["rules/a.xml"]) : Nat × List String).2.Nodup :=
  reference_index_entries_nodup wGitIndex [(100001, ["rules/a.xml"])] (by rfl)
    (100001, ["rules/a.xml"]) (by decide)

/-- Evaluation of extractor_total_keeps_prefix_on_failure: id "²" passes
the digit test, int fails, and only the earlier 100010 is kept while the
later "5" is dropped. -/
theorem extractor_total_keeps_prefix_on_failure_witness :
    extract_rule_ids_from_xml (.parsed ([some "100010"] ++ some "²" :: [some "5"]))
      = (((attrVals [some "100010"]).filter pyStrIsDigit).map decimalVal,
         [Event.unexpectedFailure]) :=
  extractor_total_keeps_prefix_on_failure [some "100010"] [some "5"] "²"
    (by
      intro t ht h1
      simp only [List.mem_cons, List.not_mem_nil, or_false] at ht
      obtain rfl := Option.some.inj ht
      revert h1
      decide)
    (by decide) (by decide)

end CheckRuleIds
